import Mathlib

/-!
Shallow embedding of the microblog backend's relational data layer and route
handlers (models.py, main.py).  Tables are lists of rows, the database session
is a `Store` value, and each FastAPI handler becomes a function from a store to
an outcome paired with the store after commit.
-/

namespace Microblog

/-- Stable error identifiers raised by the handlers (the `error_type` field of
the HTTPException detail). -/
inductive ErrType where
  | NotFound
  | Forbidden
  | Duplicate
  | InvalidAction
deriving DecidableEq, Repr

/-- Result of a handler call: a successful value, an HTTPException carrying a
stable error type, or an unanticipated database-layer exception (such as
MultipleResultsFound escaping scalar_one_or_none, or an AttributeError from a
dangling relationship). -/
inductive Outcome (α : Type) where
  | ok (a : α)
  | err (e : ErrType)
  | dbError
deriving DecidableEq, Repr

/-- Translation of SQLAlchemy `Result.scalar_one_or_none()`: `none` when the
query returned no row, the row when it is unique, and an exception when
several rows match. -/
def scalarOneOrNone {α : Type} : List α → Outcome (Option α)
  | [] => .ok none
  | [a] => .ok (some a)
  | _ :: _ :: _ => .dbError

/-- Sequence a list of optional values, failing if any element is missing.
Used to translate attribute access through ORM relationships, where a dangling
foreign key would surface as a `None` attribute and crash the handler. -/
def seqOption {α : Type} : List (Option α) → Option (List α)
  | [] => some []
  | none :: _ => none
  | some a :: rest => (seqOption rest).map (fun l => a :: l)

/-- Row of the `users` table (models.py `User`). -/
structure UserRow where
  id : Nat
  name : String
  api_key : String
deriving DecidableEq, Repr

/-- Row of the `tweets` table (models.py `Tweet`).  `created_at` is a
timestamp modelled as a natural number. -/
structure TweetRow where
  id : Nat
  content : String
  user_id : Nat
  created_at : Nat
deriving DecidableEq, Repr

/-- Row of the `likes` table (models.py `Like`).  `tweet_id` is nullable in
the schema (no `nullable=False`), and the ORM's default de-association on
parent delete does set it to NULL, so it is an `Option`. -/
structure LikeRow where
  user_id : Nat
  tweet_id : Option Nat
deriving DecidableEq, Repr

/-- Row of the `follows` table (models.py `Follow`). -/
structure FollowRow where
  follower_id : Nat
  following_id : Nat
deriving DecidableEq, Repr

/-- Row of the `media` table (models.py `Media`); `user` is the uploader's id
(the column is literally named `user`). -/
structure MediaRow where
  id : Nat
  file_path : String
  user : Nat
deriving DecidableEq, Repr

/-- Row of the `tweet_media` association table. -/
structure AssocRow where
  tweet_id : Nat
  media_id : Nat
deriving DecidableEq, Repr

/-- The database state: one list per table, auto-increment counters for the
ids handed out by the tweet and media sequences, and `importTime`, the value
`datetime.now()` had when models.py was imported — the `default=` argument of
the `created_at` column is that already-evaluated value, fixed for the
process lifetime. -/
structure Store where
  users : List UserRow
  tweets : List TweetRow
  likes : List LikeRow
  follows : List FollowRow
  media : List MediaRow
  tweetMedia : List AssocRow
  nextTweetId : Nat
  nextMediaId : Nat
  importTime : Nat
deriving DecidableEq, Repr

/-- Handler POST /api/tweets (main.py `create_tweet`).  Inserts the tweet,
then, when `tweet_media_ids` is non-empty, attaches exactly the media rows
whose id is in the list and whose `user` column equals the actor's id.
Returns the new tweet id.  `created_at` is filled from the column default,
which is the import-time timestamp. -/
def create_tweet (tweet_data : String) (tweet_media_ids : List Nat)
    (user : UserRow) (s : Store) : Outcome Nat × Store :=
  let new_tweet : TweetRow :=
    { id := s.nextTweetId, content := tweet_data, user_id := user.id,
      created_at := s.importTime }
  let s1 : Store :=
    { s with tweets := s.tweets ++ [new_tweet], nextTweetId := s.nextTweetId + 1 }
  if tweet_media_ids.isEmpty then
    (.ok new_tweet.id, s1)
  else
    let media_files := s1.media.filter
      (fun m => tweet_media_ids.contains m.id && m.user == user.id)
    (.ok new_tweet.id,
      { s1 with tweetMedia :=
          s1.tweetMedia ++ media_files.map (fun m => ⟨new_tweet.id, m.id⟩) })

/-- Handler POST /api/medias (main.py `upload_media`), with the byte storage
treated as an external collaborator: only the Media row insertion is
modelled.  Returns the new media id. -/
def upload_media (file_path : String) (user : UserRow) (s : Store) :
    Outcome Nat × Store :=
  (.ok s.nextMediaId,
    { s with media := s.media ++ [⟨s.nextMediaId, file_path, user.id⟩],
             nextMediaId := s.nextMediaId + 1 })

/-- Handler DELETE /api/tweets/:id (main.py `delete_tweet`).  `db.delete` on
the tweet triggers the ORM's default relationship handling: rows of the
secondary `tweet_media` table are deleted, while child `Like` rows are
de-associated (their `tweet_id` set to NULL) because no delete cascade is
configured on `Tweet.likes`. -/
def delete_tweet (tweet_id : Nat) (user : UserRow) (s : Store) :
    Outcome Unit × Store :=
  match scalarOneOrNone (s.tweets.filter (fun t => t.id == tweet_id)) with
  | .dbError => (.dbError, s)
  | .err e => (.err e, s)
  | .ok none => (.err .NotFound, s)
  | .ok (some tweet) =>
    if tweet.user_id != user.id then
      (.err .Forbidden, s)
    else
      (.ok (),
        { s with
          tweets := s.tweets.eraseP (fun t => t.id == tweet.id),
          likes := s.likes.map (fun l =>
            if l.tweet_id == some tweet.id then { l with tweet_id := none } else l),
          tweetMedia := s.tweetMedia.filter (fun a => a.tweet_id != tweet.id) })

/-- Handler POST /api/tweets/:id/likes (main.py `like_tweet`). -/
def like_tweet (tweet_id : Nat) (user : UserRow) (s : Store) :
    Outcome Unit × Store :=
  match scalarOneOrNone (s.tweets.filter (fun t => t.id == tweet_id)) with
  | .dbError => (.dbError, s)
  | .err e => (.err e, s)
  | .ok none => (.err .NotFound, s)
  | .ok (some _) =>
    match scalarOneOrNone (s.likes.filter
        (fun l => l.user_id == user.id && l.tweet_id == some tweet_id)) with
    | .dbError => (.dbError, s)
    | .err e => (.err e, s)
    | .ok (some _) => (.err .Duplicate, s)
    | .ok none =>
      (.ok (), { s with likes := s.likes ++ [⟨user.id, some tweet_id⟩] })

/-- Handler DELETE /api/tweets/:id/likes (main.py `delete_like_tweet`). -/
def delete_like_tweet (tweet_id : Nat) (user : UserRow) (s : Store) :
    Outcome Unit × Store :=
  match scalarOneOrNone (s.likes.filter
      (fun l => l.user_id == user.id && l.tweet_id == some tweet_id)) with
  | .dbError => (.dbError, s)
  | .err e => (.err e, s)
  | .ok none => (.err .NotFound, s)
  | .ok (some _) =>
    (.ok (), { s with likes := (s.likes.eraseP
        (fun l => l.user_id == user.id && l.tweet_id == some tweet_id)) })

/-- Handler POST /api/users/:id/follow (main.py `follow_user`). -/
def follow_user (user_id : Nat) (user : UserRow) (s : Store) :
    Outcome Unit × Store :=
  if user.id == user_id then
    (.err .InvalidAction, s)
  else
    match scalarOneOrNone (s.users.filter (fun u => u.id == user_id)) with
    | .dbError => (.dbError, s)
    | .err e => (.err e, s)
    | .ok none => (.err .NotFound, s)
    | .ok (some _) =>
      match scalarOneOrNone (s.follows.filter
          (fun f => f.follower_id == user.id && f.following_id == user_id)) with
      | .dbError => (.dbError, s)
      | .err e => (.err e, s)
      | .ok (some _) => (.err .Duplicate, s)
      | .ok none =>
        (.ok (), { s with follows := s.follows ++ [⟨user.id, user_id⟩] })

/-- Handler DELETE /api/users/:id/follow (main.py `unfollow_user`). -/
def unfollow_user (user_id : Nat) (user : UserRow) (s : Store) :
    Outcome Unit × Store :=
  match scalarOneOrNone (s.follows.filter
      (fun f => f.follower_id == user.id && f.following_id == user_id)) with
  | .dbError => (.dbError, s)
  | .err e => (.err e, s)
  | .ok none => (.err .NotFound, s)
  | .ok (some _) =>
    (.ok (), { s with follows := (s.follows.eraseP
        (fun f => f.follower_id == user.id && f.following_id == user_id)) })

/-- Author view `{id, name}` inside a feed entry or a profile. -/
structure AuthorView where
  id : Nat
  name : String
deriving DecidableEq, Repr

/-- Liker view `{user_id, name}` inside a feed entry. -/
structure LikerView where
  user_id : Nat
  name : String
deriving DecidableEq, Repr

/-- Formatted feed entry built by main.py `get_tweets`. -/
structure FormattedTweet where
  id : Nat
  content : String
  attachments : List String
  author : AuthorView
  likes : List LikerView
deriving DecidableEq, Repr

/-- Number of Like rows joined to a tweet by `Tweet.id == Like.tweet_id`
(the `func.count(Like.id)` aggregate of the feed query). -/
def likeCount (s : Store) (t : TweetRow) : Nat :=
  (s.likes.filter (fun l => l.tweet_id == some t.id)).length

/-- Ordering of the feed query, `ORDER BY count(Like.id) DESC,
tweets.created_at DESC`: `FeedBefore s a b` holds when `a` may appear no
later than `b`. -/
def FeedBefore (s : Store) (a b : TweetRow) : Prop :=
  likeCount s b < likeCount s a ∨
    (likeCount s a = likeCount s b ∧ b.created_at ≤ a.created_at)

instance (s : Store) : DecidableRel (FeedBefore s) := fun a b => by
  unfold FeedBefore; exact inferInstance

instance (s : Store) : IsTotal TweetRow (FeedBefore s) where
  total := by
    intro a b
    unfold FeedBefore
    rcases Nat.lt_trichotomy (likeCount s a) (likeCount s b) with h | h | h
    · right; left; exact h
    · rcases Nat.le_total b.created_at a.created_at with h2 | h2
      · left; right; exact ⟨h, h2⟩
      · right; right; exact ⟨h.symm, h2⟩
    · left; left; exact h

instance (s : Store) : IsTrans TweetRow (FeedBefore s) where
  trans := by
    intro a b c hab hbc
    unfold FeedBefore at hab hbc ⊢
    rcases hab with h1 | ⟨h1, h1'⟩ <;> rcases hbc with h2 | ⟨h2, h2'⟩
    · left; omega
    · left; omega
    · left; omega
    · right; exact ⟨by omega, Nat.le_trans h2' h1'⟩

/-- The tweet rows in the order the feed query returns them. -/
def sortedTweets (s : Store) : List TweetRow :=
  List.insertionSort (FeedBefore s) s.tweets

/-- File paths of the media attached to a tweet through the association
table (`tweet.media` traversal); `none` if an association row references a
missing media row. -/
def tweetAttachments (s : Store) (t : TweetRow) : Option (List String) :=
  seqOption ((s.tweetMedia.filter (fun a => a.tweet_id == t.id)).map
    (fun a => (s.media.find? (fun m => m.id == a.media_id)).map
      (fun m => m.file_path)))

/-- The `{user_id, name}` liker list of a tweet (`tweet.likes` with
`like.user` traversal); `none` if a like references a missing user. -/
def tweetLikers (s : Store) (t : TweetRow) : Option (List LikerView) :=
  seqOption ((s.likes.filter (fun l => l.tweet_id == some t.id)).map
    (fun l => (s.users.find? (fun u => u.id == l.user_id)).map
      (fun u => ⟨u.id, u.name⟩)))

/-- One entry of the feed response body; `none` when a relationship is
dangling (in Python, an AttributeError on a `None` attribute). -/
def formatTweet (s : Store) (t : TweetRow) : Option FormattedTweet :=
  (s.users.find? (fun u => u.id == t.user_id)).bind (fun author =>
    (tweetAttachments s t).bind (fun att =>
      (tweetLikers s t).map (fun likers =>
        { id := t.id, content := t.content, attachments := att,
          author := ⟨author.id, author.name⟩, likes := likers })))

/-- Handler GET /api/tweets (main.py `get_tweets`): all tweets, ordered by
like count descending then `created_at` descending, each formatted with its
attachments, author and likers. -/
def get_tweets (s : Store) : Outcome (List FormattedTweet) :=
  match seqOption ((sortedTweets s).map (formatTweet s)) with
  | some out => .ok out
  | none => .dbError

/-- Profile view returned by main.py `get_user_profile`. -/
structure ProfileView where
  id : Nat
  name : String
  followers : List AuthorView
  following : List AuthorView
deriving DecidableEq, Repr

/-- The `{id, name}` list built from `user.followers` (Follow rows whose
`following_id` is the user's id, each mapped through `follow.follower`). -/
def profileFollowers (s : Store) (userId : Nat) : Option (List AuthorView) :=
  seqOption ((s.follows.filter (fun f => f.following_id == userId)).map
    (fun f => (s.users.find? (fun u => u.id == f.follower_id)).map
      (fun u => ⟨u.id, u.name⟩)))

/-- The `{id, name}` list built from `user.following` (Follow rows whose
`follower_id` is the user's id, each mapped through `follow.following`). -/
def profileFollowing (s : Store) (userId : Nat) : Option (List AuthorView) :=
  seqOption ((s.follows.filter (fun f => f.follower_id == userId)).map
    (fun f => (s.users.find? (fun u => u.id == f.following_id)).map
      (fun u => ⟨u.id, u.name⟩)))

/-- Handler GET /api/users/:id (main.py `get_user_profile`). -/
def get_user_profile (user_id : Nat) (s : Store) : Outcome ProfileView :=
  match scalarOneOrNone (s.users.filter (fun u => u.id == user_id)) with
  | .dbError => .dbError
  | .err e => .err e
  | .ok none => .err .NotFound
  | .ok (some u) =>
    match profileFollowers s u.id, profileFollowing s u.id with
    | some fols, some fong =>
      .ok { id := u.id, name := u.name, followers := fols, following := fong }
    | _, _ => .dbError

/-- Declaration of one column as written in models.py: the `Column(...)`
call's constraint-relevant arguments.  SQLAlchemy defaults: not a primary
key, not unique, nullable, no foreign key. -/
structure ColumnDef where
  name : String
  sqlType : String
  primaryKey : Bool := false
  unique : Bool := false
  nullable : Bool := true
  foreignKey : Option String := none
deriving DecidableEq, Repr

/-- Table-level constraint declarations (`UniqueConstraint`,
`CheckConstraint` in `__table_args__` or `Table(...)` positional args). -/
inductive TableConstraint where
  | uniqueConstraint (cols : List String)
  | checkConstraint (sqlExpr : String)
deriving DecidableEq, Repr

/-- One declared table: its columns and its table-level constraints. -/
structure TableDef where
  name : String
  columns : List ColumnDef
  constraints : List TableConstraint
deriving DecidableEq, Repr

/-- models.py `User` (the source writes `__table__name`, a typo for
`__tablename__`; the intended table is `users`). -/
def users_table : TableDef :=
  { name := "users",
    columns :=
      [ { name := "id", sqlType := "Integer", primaryKey := true },
        { name := "name", sqlType := "String(50)", nullable := false },
        { name := "api_key", sqlType := "String", unique := true,
          nullable := false } ],
    constraints := [] }

/-- models.py `Tweet`. -/
def tweets_table : TableDef :=
  { name := "tweets",
    columns :=
      [ { name := "id", sqlType := "Integer", primaryKey := true },
        { name := "content", sqlType := "String(280)", nullable := false },
        { name := "user_id", sqlType := "Integer", foreignKey := some "users.id" },
        { name := "created_at", sqlType := "DATETIME" } ],
    constraints := [] }

/-- models.py `Like`: only a surrogate primary key and two foreign keys are
declared; models.py declares no table-level constraints on it. -/
def likes_table : TableDef :=
  { name := "likes",
    columns :=
      [ { name := "id", sqlType := "Integer", primaryKey := true },
        { name := "user_id", sqlType := "Integer", foreignKey := some "users.id" },
        { name := "tweet_id", sqlType := "Integer", foreignKey := some "tweets.id" } ],
    constraints := [] }

/-- models.py `Follow`: only a surrogate primary key and two foreign keys
are declared; models.py declares no table-level constraints on it. -/
def follows_table : TableDef :=
  { name := "follows",
    columns :=
      [ { name := "id", sqlType := "Integer", primaryKey := true },
        { name := "follower_id", sqlType := "Integer", foreignKey := some "users.id" },
        { name := "following_id", sqlType := "Integer", foreignKey := some "users.id" } ],
    constraints := [] }

/-- models.py `Media`. -/
def media_table : TableDef :=
  { name := "media",
    columns :=
      [ { name := "id", sqlType := "Integer", primaryKey := true },
        { name := "file_path", sqlType := "String(255)", nullable := false },
        { name := "user", sqlType := "Integer", foreignKey := some "users.id" } ],
    constraints := [] }

/-- models.py `tweet_media_association` table. -/
def tweet_media_table : TableDef :=
  { name := "tweet_media",
    columns :=
      [ { name := "tweet_id", sqlType := "Integer", foreignKey := some "tweets.id" },
        { name := "media_id", sqlType := "Integer", foreignKey := some "media.id" } ],
    constraints := [] }

/-- Modelled from the spec's words: a uniqueness constraint over `cols` is
declared on the table schema when either the column set is a single column
declared `unique=True` (or the primary key), or a table-level
`UniqueConstraint` over exactly those columns is declared. -/
def declaresUniqueOn (t : TableDef) (cols : List String) : Bool :=
  (match cols with
   | [c] => t.columns.any (fun col => col.name == c && (col.unique || col.primaryKey))
   | _ => false) ||
  t.constraints.contains (.uniqueConstraint cols)

/-- Modelled from the spec's words: whether any CHECK constraint at all is
declared on the table (the no-self-follow rule would need one). -/
def declaresSomeCheck (t : TableDef) : Bool :=
  t.constraints.any (fun c =>
    match c with
    | .checkConstraint _ => true
    | _ => false)

/-- The (user_id, tweet_id) pairs of the Like rows that still reference a
tweet (rows whose `tweet_id` is NULL contribute nothing). -/
def likePairs (s : Store) : List (Nat × Nat) :=
  s.likes.filterMap (fun l => l.tweet_id.map (fun t => (l.user_id, t)))

/-- The (follower_id, following_id) pairs of the Follow rows. -/
def followPairs (s : Store) : List (Nat × Nat) :=
  s.follows.map (fun f => (f.follower_id, f.following_id))

/-- The pair-uniqueness and no-self-follow invariants maintained by the
application-level checks of the handlers. -/
def StoreInv (s : Store) : Prop :=
  (likePairs s).Nodup ∧ (followPairs s).Nodup ∧
    ∀ f ∈ s.follows, f.follower_id ≠ f.following_id

/-- One committed request: any of the mutating handlers, run by any
authenticated actor, with any arguments (error outcomes leave the store
unchanged). -/
inductive Step : Store → Store → Prop where
  | create (td : String) (mids : List Nat) (u : UserRow) (s : Store) :
      Step s (create_tweet td mids u s).2
  | upload (fp : String) (u : UserRow) (s : Store) :
      Step s (upload_media fp u s).2
  | deleteTw (tid : Nat) (u : UserRow) (s : Store) :
      Step s (delete_tweet tid u s).2
  | like (tid : Nat) (u : UserRow) (s : Store) :
      Step s (like_tweet tid u s).2
  | unlike (tid : Nat) (u : UserRow) (s : Store) :
      Step s (delete_like_tweet tid u s).2
  | follow (uid : Nat) (u : UserRow) (s : Store) :
      Step s (follow_user uid u s).2
  | unfollow (uid : Nat) (u : UserRow) (s : Store) :
      Step s (unfollow_user uid u s).2

/-- Stores reachable from a given store by a sequence of committed
requests. -/
def Reachable : Store → Store → Prop := Relation.ReflTransGen Step

/-- A freshly initialised store: tables are empty except `users`, which holds
the users seeded at startup. -/
def InitStore (s : Store) : Prop :=
  s.tweets = [] ∧ s.likes = [] ∧ s.follows = [] ∧
    s.media = [] ∧ s.tweetMedia = []

/-- First user seeded by the lifespan hook. -/
def seedUser1 : UserRow := ⟨1, "test", "test"⟩

/-- Second user seeded by the lifespan hook. -/
def seedUser2 : UserRow := ⟨2, "Bob", "Bob123"⟩

/-- Third user seeded by the lifespan hook. -/
def seedUser3 : UserRow := ⟨3, "Alex", "Alex123"⟩

/-- The store right after startup: seeded users, all other tables empty. -/
def emptyStore : Store :=
  { users := [seedUser1, seedUser2, seedUser3],
    tweets := [], likes := [], follows := [], media := [], tweetMedia := [],
    nextTweetId := 1, nextMediaId := 1, importTime := 0 }

/-- Five users for the feed-ordering example. -/
def feedUsers : List UserRow :=
  [⟨1, "u1", "k1"⟩, ⟨2, "u2", "k2"⟩, ⟨3, "u3", "k3"⟩, ⟨4, "u4", "k4"⟩,
   ⟨5, "u5", "k5"⟩]

/-- The spec's feed-ordering example: T1 with 2 likes created at time 1, T2
with 2 likes created at time 2, T3 with 5 likes created at time 0. -/
def feedStore : Store :=
  { users := feedUsers,
    tweets := [⟨1, "T1", 1, 1⟩, ⟨2, "T2", 1, 2⟩, ⟨3, "T3", 1, 0⟩],
    likes := [⟨1, some 1⟩, ⟨2, some 1⟩, ⟨1, some 2⟩, ⟨2, some 2⟩,
              ⟨1, some 3⟩, ⟨2, some 3⟩, ⟨3, some 3⟩, ⟨4, some 3⟩, ⟨5, some 3⟩],
    follows := [], media := [], tweetMedia := [],
    nextTweetId := 4, nextMediaId := 1, importTime := 0 }

/-- A store with one tweet owned by user 1, one like on it by user 2, and one
media attachment, for exercising tweet deletion. -/
def exDeleteStore : Store :=
  { users := [seedUser1, seedUser2],
    tweets := [⟨1, "hello", 1, 0⟩],
    likes := [⟨2, some 1⟩],
    follows := [],
    media := [⟨1, "uploads/a.png", 1⟩],
    tweetMedia := [⟨1, 1⟩],
    nextTweetId := 2, nextMediaId := 2, importTime := 0 }

/-- The store expected after user 1 deletes tweet 1 in `exDeleteStore`: the
tweet row and association row are gone, the like row survives with its
tweet_id nulled out. -/
def exDeleteStoreAfter : Store :=
  { users := [seedUser1, seedUser2],
    tweets := [],
    likes := [⟨2, none⟩],
    follows := [],
    media := [⟨1, "uploads/a.png", 1⟩],
    tweetMedia := [],
    nextTweetId := 2, nextMediaId := 2, importTime := 0 }

/-- A store holding one media row owned by user 2, used to create a tweet as
user 1 referencing that foreign media. -/
def exMediaStore : Store :=
  { users := [seedUser1, seedUser2],
    tweets := [], likes := [], follows := [],
    media := [⟨5, "uploads/x.png", 2⟩],
    tweetMedia := [],
    nextTweetId := 1, nextMediaId := 6, importTime := 0 }

/-- The store expected after user 1 creates tweet "hi" in `exMediaStore`
referencing foreign media 5: the tweet exists, zero attachments. -/
def exMediaStoreAfter : Store :=
  { users := [seedUser1, seedUser2],
    tweets := [⟨1, "hi", 1, 0⟩],
    likes := [], follows := [],
    media := [⟨5, "uploads/x.png", 2⟩],
    tweetMedia := [],
    nextTweetId := 2, nextMediaId := 6, importTime := 0 }

/-- A store with a single tweet authored by user 2, used for the
like/unlike/re-like scenario run by user 1. -/
def scenarioStore : Store :=
  { users := [seedUser1, seedUser2],
    tweets := [⟨1, "hello", 2, 0⟩],
    likes := [], follows := [], media := [], tweetMedia := [],
    nextTweetId := 2, nextMediaId := 1, importTime := 0 }

/-- A store with a single tweet authored by user 1 themselves, for the
self-like check. -/
def selfTweetStore : Store :=
  { users := [seedUser1, seedUser2],
    tweets := [⟨1, "mine", 1, 0⟩],
    likes := [], follows := [], media := [], tweetMedia := [],
    nextTweetId := 2, nextMediaId := 1, importTime := 0 }

/-- A store with follow rows 2→1, 3→1 and 1→3, for the profile example. -/
def profileStore : Store :=
  { users := [seedUser1, seedUser2, seedUser3],
    tweets := [], likes := [],
    follows := [⟨2, 1⟩, ⟨3, 1⟩, ⟨1, 3⟩],
    media := [], tweetMedia := [],
    nextTweetId := 1, nextMediaId := 1, importTime := 0 }

/-! Helper lemmas about the query primitives. -/

theorem scalarOneOrNone_eq_ok_none {α : Type} {l : List α} :
    scalarOneOrNone l = .ok none ↔ l = [] := by
  cases l with
  | nil => simp [scalarOneOrNone]
  | cons a rest => cases rest <;> simp [scalarOneOrNone]

theorem scalarOneOrNone_eq_ok_some {α : Type} {l : List α} {a : α} :
    scalarOneOrNone l = .ok (some a) ↔ l = [a] := by
  cases l with
  | nil => simp [scalarOneOrNone]
  | cons b rest => cases rest <;> simp [scalarOneOrNone]

theorem seqOption_forall₂ {α β : Type} {f : β → Option α} :
    ∀ {l : List β} {out : List α}, seqOption (l.map f) = some out →
      List.Forall₂ (fun b x => f b = some x) l out := by
  intro l
  induction l with
  | nil =>
    intro out h
    simp only [List.map_nil, seqOption, Option.some.injEq] at h
    subst h
    exact List.Forall₂.nil
  | cons b rest ih =>
    intro out h
    simp only [List.map_cons] at h
    cases hf : f b with
    | none => rw [hf] at h; simp [seqOption] at h
    | some x =>
      rw [hf] at h
      cases hr : seqOption (rest.map f) with
      | none => rw [seqOption, hr] at h; simp at h
      | some outr =>
        rw [seqOption, hr] at h
        simp only [Option.map_some', Option.some.injEq] at h
        subst h
        exact List.Forall₂.cons hf (ih hr)

theorem seqOption_isSome {α β : Type} (f : β → Option α) :
    ∀ (l : List β), (∀ b ∈ l, (f b).isSome) →
      ∃ out, seqOption (l.map f) = some out := by
  intro l
  induction l with
  | nil => intro _; exact ⟨[], rfl⟩
  | cons b rest ih =>
    intro h
    obtain ⟨x, hx⟩ := Option.isSome_iff_exists.mp (h b (List.mem_cons_self b rest))
    obtain ⟨outr, hr⟩ := ih (fun c hc => h c (List.mem_cons_of_mem b hc))
    exact ⟨x :: outr, by rw [List.map_cons, hx, seqOption, hr]; rfl⟩

theorem forall₂_mem_iff {α β : Type} {f : β → Option α} :
    ∀ {l : List β} {out : List α},
      List.Forall₂ (fun b x => f b = some x) l out →
      ∀ x, x ∈ out ↔ ∃ b ∈ l, f b = some x := by
  intro l out h
  induction h with
  | nil => simp
  | @cons b x rest outr hbx _ ih =>
    intro y
    constructor
    · intro hy
      rcases List.mem_cons.mp hy with rfl | hy
      · exact ⟨b, List.mem_cons_self b rest, hbx⟩
      · obtain ⟨c, hc, hfc⟩ := (ih y).mp hy
        exact ⟨c, List.mem_cons_of_mem b hc, hfc⟩
    · rintro ⟨c, hc, hfc⟩
      rcases List.mem_cons.mp hc with rfl | hc
      · rw [hbx] at hfc
        have hxy : x = y := by injection hfc
        exact hxy ▸ List.mem_cons_self x outr
      · exact List.mem_cons_of_mem x ((ih y).mpr ⟨c, hc, hfc⟩)

theorem find?_key_eq {α : Type} (key : α → Nat) {l : List α}
    (hnd : (l.map key).Nodup) {a : α} (ha : a ∈ l) {i : Nat} (hi : key a = i) :
    l.find? (fun x => key x == i) = some a := by
  induction l with
  | nil => cases ha
  | cons b rest ih =>
    simp only [List.map_cons, List.nodup_cons] at hnd
    rcases List.mem_cons.mp ha with rfl | hmem
    · exact List.find?_cons_of_pos rest (by simp [hi])
    · have hne : ¬ key b = i := by
        intro hEq
        have hm : key a ∈ rest.map key := List.mem_map.mpr ⟨a, hmem, rfl⟩
        rw [hi, ← hEq] at hm
        exact hnd.1 hm
      rw [List.find?_cons_of_neg rest (by simp [hne])]
      exact ih hnd.2 hmem

theorem filter_key_eq {α : Type} (key : α → Nat) {l : List α}
    (hnd : (l.map key).Nodup) {a : α} (ha : a ∈ l) {i : Nat} (hi : key a = i) :
    l.filter (fun x => key x == i) = [a] := by
  induction l with
  | nil => cases ha
  | cons b rest ih =>
    simp only [List.map_cons, List.nodup_cons] at hnd
    rcases List.mem_cons.mp ha with rfl | hmem
    · rw [List.filter_cons_of_pos (by simp [hi])]
      have hrest : rest.filter (fun x => key x == i) = [] := by
        apply List.filter_eq_nil_iff.mpr
        intro c hc
        simp only [beq_iff_eq]
        intro hEq
        have hm : key c ∈ rest.map key := List.mem_map.mpr ⟨c, hc, rfl⟩
        rw [hEq, ← hi] at hm
        exact hnd.1 hm
      rw [hrest]
    · have hne : ¬ key b = i := by
        intro hEq
        have hm : key a ∈ rest.map key := List.mem_map.mpr ⟨a, hmem, rfl⟩
        rw [hi, ← hEq] at hm
        exact hnd.1 hm
      rw [List.filter_cons_of_neg (by simp [hne])]
      exact ih hnd.2 hmem

theorem filter_length_le_one {α β : Type} {f : α → Option β}
    {p : α → Bool} {c : β} :
    ∀ {l : List α}, (l.filterMap f).Nodup → (∀ x, p x = true → f x = some c) →
      (l.filter p).length ≤ 1 := by
  intro l
  induction l with
  | nil => intro _ _; simp
  | cons b rest ih =>
    intro hnd hc
    by_cases hb : p b = true
    · rw [List.filter_cons_of_pos hb]
      have hfb := hc b hb
      rw [List.filterMap_cons, hfb] at hnd
      have hrest : rest.filter p = [] := by
        apply List.filter_eq_nil_iff.mpr
        intro x hx hpx
        exact (List.nodup_cons.mp hnd).1
          (List.mem_filterMap.mpr ⟨x, hx, hc x hpx⟩)
      rw [hrest]
      simp
    · rw [List.filter_cons_of_neg (by simpa using hb)]
      refine ih ?_ hc
      have hsub : List.Sublist (rest.filterMap f) ((b :: rest).filterMap f) :=
        (List.sublist_cons_self b rest).filterMap f
      exact hsub.nodup hnd

theorem filterMap_sublist_of_imp {α β : Type} {f g : α → Option β}
    (h : ∀ a b, f a = some b → g a = some b) :
    ∀ (l : List α), List.Sublist (l.filterMap f) (l.filterMap g) := by
  intro l
  induction l with
  | nil => simp
  | cons x rest ih =>
    rw [List.filterMap_cons, List.filterMap_cons]
    cases hf : f x with
    | none =>
      cases hg : g x with
      | none => exact ih
      | some b => exact List.Sublist.cons b ih
    | some b =>
      rw [h x b hf]
      exact List.Sublist.cons₂ b ih

theorem nodup_append_singleton {α : Type} {l : List α} {a : α}
    (hnd : l.Nodup) (ha : a ∉ l) : (l ++ [a]).Nodup := by
  rw [List.nodup_append]
  refine ⟨hnd, List.nodup_singleton a, ?_⟩
  intro x hx hxa
  rw [List.mem_singleton] at hxa
  exact ha (hxa ▸ hx)

theorem eq_singleton_of_mem_of_length_le_one {α : Type} {l : List α} {x : α}
    (hx : x ∈ l) (hlen : l.length ≤ 1) : l = [x] := by
  cases l with
  | nil => cases hx
  | cons a rest =>
    cases rest with
    | nil => simp_all
    | cons b r2 => simp at hlen

theorem mem_eraseP_iff_of_unique {α : Type} {p : α → Bool} :
    ∀ {l : List α}, (l.filter p).length ≤ 1 →
      ∀ x, x ∈ l.eraseP p ↔ (x ∈ l ∧ p x = false) := by
  intro l
  induction l with
  | nil => intro _ x; simp
  | cons a rest ih =>
    intro hlen x
    by_cases ha : p a = true
    · rw [List.eraseP_cons_of_pos ha]
      rw [List.filter_cons_of_pos ha] at hlen
      have hrest : ∀ y ∈ rest, p y = false := by
        intro y hy
        by_contra hpy
        have hmem : y ∈ rest.filter p :=
          List.mem_filter.mpr ⟨hy, by revert hpy; cases p y <;> simp⟩
        rw [List.length_cons] at hlen
        have : rest.filter p = [] := by
          cases hf : rest.filter p with
          | nil => rfl
          | cons z zs => rw [hf] at hlen; simp at hlen
        rw [this] at hmem
        cases hmem
      constructor
      · intro hx
        exact ⟨List.mem_cons_of_mem a hx, hrest x hx⟩
      · rintro ⟨hx, hpx⟩
        rcases List.mem_cons.mp hx with rfl | hx
        · rw [ha] at hpx; cases hpx
        · exact hx
    · have ha' : p a = false := by revert ha; cases p a <;> simp
      rw [List.eraseP_cons_of_neg (by simp [ha'])]
      rw [List.filter_cons_of_neg (by simp [ha'])] at hlen
      constructor
      · intro hx
        rcases List.mem_cons.mp hx with h | hx
        · rw [h]
          exact ⟨List.mem_cons_self a rest, ha'⟩
        · obtain ⟨h1, h2⟩ := (ih hlen x).mp hx
          exact ⟨List.mem_cons_of_mem a h1, h2⟩
      · rintro ⟨hx, hpx⟩
        rcases List.mem_cons.mp hx with h | hx
        · rw [h]
          exact List.mem_cons_self a _
        · exact List.mem_cons_of_mem a ((ih hlen x).mpr ⟨hx, hpx⟩)

/-! Case analyses of each mutating handler's resulting store. -/

theorem create_tweet_keeps_social (td : String) (mids : List Nat) (u : UserRow)
    (s : Store) :
    (create_tweet td mids u s).2.likes = s.likes ∧
      (create_tweet td mids u s).2.follows = s.follows := by
  unfold create_tweet
  by_cases h : mids.isEmpty <;> simp [h]

theorem upload_media_keeps_social (fp : String) (u : UserRow) (s : Store) :
    (upload_media fp u s).2.likes = s.likes ∧
      (upload_media fp u s).2.follows = s.follows :=
  ⟨rfl, rfl⟩

theorem delete_tweet_snd (tid : Nat) (u : UserRow) (s : Store) :
    (delete_tweet tid u s).2 = s ∨
    ∃ tw : TweetRow,
      (delete_tweet tid u s).2 =
        { s with
          tweets := s.tweets.eraseP (fun t => t.id == tw.id),
          likes := s.likes.map (fun l =>
            if l.tweet_id == some tw.id then { l with tweet_id := none } else l),
          tweetMedia := s.tweetMedia.filter (fun a => a.tweet_id != tw.id) } := by
  unfold delete_tweet
  cases h : scalarOneOrNone (s.tweets.filter (fun t => t.id == tid)) with
  | ok o =>
    cases o with
    | none => left; simp [h]
    | some tw =>
      cases hown : (tw.user_id != u.id) with
      | true => left; simp [h, hown]
      | false => right; exact ⟨tw, by simp [h, hown]⟩
  | err e => left; simp [h]
  | dbError => left; simp [h]

theorem like_tweet_snd (tid : Nat) (u : UserRow) (s : Store) :
    (like_tweet tid u s).2 = s ∨
    ((like_tweet tid u s).2 = { s with likes := s.likes ++ [⟨u.id, some tid⟩] } ∧
      s.likes.filter (fun l => l.user_id == u.id && l.tweet_id == some tid) = []) := by
  unfold like_tweet
  cases h1 : scalarOneOrNone (s.tweets.filter (fun t => t.id == tid)) with
  | ok o1 =>
    cases o1 with
    | none => left; simp [h1]
    | some tw =>
      cases h2 : scalarOneOrNone (s.likes.filter
          (fun l => l.user_id == u.id && l.tweet_id == some tid)) with
      | ok o2 =>
        cases o2 with
        | none =>
          right
          exact ⟨by simp [h1, h2], scalarOneOrNone_eq_ok_none.mp h2⟩
        | some lk => left; simp [h1, h2]
      | err e => left; simp [h1, h2]
      | dbError => left; simp [h1, h2]
  | err e => left; simp [h1]
  | dbError => left; simp [h1]

theorem delete_like_tweet_snd (tid : Nat) (u : UserRow) (s : Store) :
    (delete_like_tweet tid u s).2 = s ∨
    (delete_like_tweet tid u s).2 =
      { s with likes := (s.likes.eraseP
          (fun l => l.user_id == u.id && l.tweet_id == some tid)) } := by
  unfold delete_like_tweet
  cases h : scalarOneOrNone (s.likes.filter
      (fun l => l.user_id == u.id && l.tweet_id == some tid)) with
  | ok o =>
    cases o with
    | none => left; simp [h]
    | some lk => right; simp [h]
  | err e => left; simp [h]
  | dbError => left; simp [h]

theorem follow_user_snd (uid : Nat) (u : UserRow) (s : Store) :
    (follow_user uid u s).2 = s ∨
    ((follow_user uid u s).2 = { s with follows := s.follows ++ [⟨u.id, uid⟩] } ∧
      s.follows.filter (fun f => f.follower_id == u.id && f.following_id == uid) = [] ∧
      u.id ≠ uid) := by
  unfold follow_user
  cases hself : (u.id == uid) with
  | true => left; simp [hself]
  | false =>
    cases h1 : scalarOneOrNone (s.users.filter (fun x => x.id == uid)) with
    | ok o1 =>
      cases o1 with
      | none => left; simp [hself, h1]
      | some tgt =>
        cases h2 : scalarOneOrNone (s.follows.filter
            (fun f => f.follower_id == u.id && f.following_id == uid)) with
        | ok o2 =>
          cases o2 with
          | none =>
            right
            refine ⟨by simp [hself, h1, h2], scalarOneOrNone_eq_ok_none.mp h2, ?_⟩
            simpa using hself
          | some f0 => left; simp [hself, h1, h2]
        | err e => left; simp [hself, h1, h2]
        | dbError => left; simp [hself, h1, h2]
    | err e => left; simp [hself, h1]
    | dbError => left; simp [hself, h1]

theorem unfollow_user_snd (uid : Nat) (u : UserRow) (s : Store) :
    (unfollow_user uid u s).2 = s ∨
    (unfollow_user uid u s).2 =
      { s with follows := (s.follows.eraseP
          (fun f => f.follower_id == u.id && f.following_id == uid)) } := by
  unfold unfollow_user
  cases h : scalarOneOrNone (s.follows.filter
      (fun f => f.follower_id == u.id && f.following_id == uid)) with
  | ok o =>
    cases o with
    | none => left; simp [h]
    | some f0 => right; simp [h]
  | err e => left; simp [h]
  | dbError => left; simp [h]

/-! Preservation of the pair-uniqueness and no-self-follow invariants. -/

theorem likePairs_nodup_delete (s : Store) (tw : TweetRow)
    (h : (likePairs s).Nodup) :
    ((s.likes.map (fun l =>
      if l.tweet_id == some tw.id then { l with tweet_id := none } else l)).filterMap
        (fun l => l.tweet_id.map (fun t => (l.user_id, t)))).Nodup := by
  rw [List.filterMap_map]
  have himp : ∀ (a : LikeRow) (b : Nat × Nat),
      (fun l : LikeRow => l.tweet_id.map (fun t => (l.user_id, t)))
        ((fun l : LikeRow =>
          if l.tweet_id == some tw.id then { l with tweet_id := none } else l) a)
        = some b →
      (fun l : LikeRow => l.tweet_id.map (fun t => (l.user_id, t))) a = some b := by
    intro a b hab
    by_cases hc : (a.tweet_id == some tw.id) = true
    · simp only [hc, if_true] at hab
      simp at hab
    · simp only [hc, if_false] at hab
      exact hab
  exact (filterMap_sublist_of_imp himp s.likes).nodup h

theorem storeInv_step {s s' : Store} (hs : StoreInv s) (h : Step s s') :
    StoreInv s' := by
  obtain ⟨hL, hF, hSelf⟩ := hs
  cases h with
  | create td mids u =>
    obtain ⟨h1, h2⟩ := create_tweet_keeps_social td mids u s
    refine ⟨?_, ?_, ?_⟩
    · unfold likePairs; rw [h1]; exact hL
    · unfold followPairs; rw [h2]; exact hF
    · rw [h2]; exact hSelf
  | upload fp u =>
    obtain ⟨h1, h2⟩ := upload_media_keeps_social fp u s
    refine ⟨?_, ?_, ?_⟩
    · unfold likePairs; rw [h1]; exact hL
    · unfold followPairs; rw [h2]; exact hF
    · rw [h2]; exact hSelf
  | deleteTw tid u =>
    rcases delete_tweet_snd tid u s with h' | ⟨tw, h'⟩
    · rw [h']; exact ⟨hL, hF, hSelf⟩
    · rw [h']
      exact ⟨likePairs_nodup_delete s tw hL, hF, hSelf⟩
  | like tid u =>
    rcases like_tweet_snd tid u s with h' | ⟨h', hempty⟩
    · rw [h']; exact ⟨hL, hF, hSelf⟩
    · rw [h']
      refine ⟨?_, hF, hSelf⟩
      show ((s.likes ++ [(⟨u.id, some tid⟩ : LikeRow)]).filterMap
        (fun l => l.tweet_id.map (fun t => (l.user_id, t)))).Nodup
      rw [List.filterMap_append]
      have hnew : List.filterMap
          (fun l : LikeRow => l.tweet_id.map (fun t => (l.user_id, t)))
          [⟨u.id, some tid⟩] = [(u.id, tid)] := rfl
      rw [hnew]
      apply nodup_append_singleton hL
      intro hmem
      obtain ⟨lrow, hlmem, hlf⟩ := List.mem_filterMap.mp hmem
      have hpred := List.filter_eq_nil_iff.mp hempty lrow hlmem
      cases ht : lrow.tweet_id with
      | none => rw [ht] at hlf; simp at hlf
      | some t0 =>
        rw [ht] at hlf
        simp only [Option.map_some', Option.some.injEq, Prod.mk.injEq] at hlf
        apply hpred
        simp [hlf.1, ht, hlf.2]
  | unlike tid u =>
    rcases delete_like_tweet_snd tid u s with h' | h'
    · rw [h']; exact ⟨hL, hF, hSelf⟩
    · rw [h']
      refine ⟨?_, hF, hSelf⟩
      exact ((List.eraseP_sublist _).filterMap _).nodup hL
  | follow uid u =>
    rcases follow_user_snd uid u s with h' | ⟨h', hempty, hne⟩
    · rw [h']; exact ⟨hL, hF, hSelf⟩
    · rw [h']
      refine ⟨hL, ?_, ?_⟩
      · show ((s.follows ++ [(⟨u.id, uid⟩ : FollowRow)]).map
          (fun f => (f.follower_id, f.following_id))).Nodup
        rw [List.map_append]
        have hnew : List.map
            (fun f : FollowRow => (f.follower_id, f.following_id))
            [⟨u.id, uid⟩] = [(u.id, uid)] := rfl
        rw [hnew]
        apply nodup_append_singleton hF
        intro hmem
        obtain ⟨frow, hfm, hfe⟩ := List.mem_map.mp hmem
        have hpred := List.filter_eq_nil_iff.mp hempty frow hfm
        apply hpred
        simp only [Prod.mk.injEq] at hfe
        simp [hfe.1, hfe.2]
      · intro f hf
        rcases List.mem_append.mp hf with hf | hf
        · exact hSelf f hf
        · rw [List.mem_singleton] at hf
          rw [hf]
          simpa using hne
  | unfollow uid u =>
    rcases unfollow_user_snd uid u s with h' | h'
    · rw [h']; exact ⟨hL, hF, hSelf⟩
    · rw [h']
      refine ⟨hL, ?_, ?_⟩
      · exact ((List.eraseP_sublist _).map _).nodup hF
      · intro f hf
        exact hSelf f ((List.eraseP_sublist _).subset hf)

theorem storeInv_of_reachable {s0 s : Store} (h0 : InitStore s0)
    (h : Reachable s0 s) : StoreInv s := by
  unfold Reachable at h
  induction h with
  | refl =>
    obtain ⟨-, hlk, hfl, -, -⟩ := h0
    refine ⟨?_, ?_, ?_⟩
    · unfold likePairs; rw [hlk]; exact List.nodup_nil
    · unfold followPairs; rw [hfl]; exact List.nodup_nil
    · intro f hf; rw [hfl] at hf; cases hf
  | tail hr hstep ih => exact storeInv_step ih hstep

/-! Per-handler atomicity on error paths. -/

theorem delete_tweet_atomic (tid : Nat) (u : UserRow) (s : Store) (e : ErrType) :
    (delete_tweet tid u s).1 = .err e → (delete_tweet tid u s).2 = s := by
  unfold delete_tweet
  cases h : scalarOneOrNone (s.tweets.filter (fun t => t.id == tid)) with
  | ok o =>
    cases o with
    | none => intro _; simp [h]
    | some tw =>
      cases hown : (tw.user_id != u.id) with
      | true => intro _; simp [h, hown]
      | false => intro hcontra; simp [h, hown] at hcontra
  | err e2 => intro _; simp [h]
  | dbError => intro _; simp [h]

theorem like_tweet_atomic (tid : Nat) (u : UserRow) (s : Store) (e : ErrType) :
    (like_tweet tid u s).1 = .err e → (like_tweet tid u s).2 = s := by
  unfold like_tweet
  cases h1 : scalarOneOrNone (s.tweets.filter (fun t => t.id == tid)) with
  | ok o1 =>
    cases o1 with
    | none => intro _; simp [h1]
    | some tw =>
      cases h2 : scalarOneOrNone (s.likes.filter
          (fun l => l.user_id == u.id && l.tweet_id == some tid)) with
      | ok o2 =>
        cases o2 with
        | none => intro hcontra; simp [h1, h2] at hcontra
        | some lk => intro _; simp [h1, h2]
      | err e2 => intro _; simp [h1, h2]
      | dbError => intro _; simp [h1, h2]
  | err e2 => intro _; simp [h1]
  | dbError => intro _; simp [h1]

theorem delete_like_tweet_atomic (tid : Nat) (u : UserRow) (s : Store)
    (e : ErrType) :
    (delete_like_tweet tid u s).1 = .err e → (delete_like_tweet tid u s).2 = s := by
  unfold delete_like_tweet
  cases h : scalarOneOrNone (s.likes.filter
      (fun l => l.user_id == u.id && l.tweet_id == some tid)) with
  | ok o =>
    cases o with
    | none => intro _; simp [h]
    | some lk => intro hcontra; simp [h] at hcontra
  | err e2 => intro _; simp [h]
  | dbError => intro _; simp [h]

theorem follow_user_atomic (uid : Nat) (u : UserRow) (s : Store) (e : ErrType) :
    (follow_user uid u s).1 = .err e → (follow_user uid u s).2 = s := by
  unfold follow_user
  cases hself : (u.id == uid) with
  | true => intro _; simp [hself]
  | false =>
    cases h1 : scalarOneOrNone (s.users.filter (fun x => x.id == uid)) with
    | ok o1 =>
      cases o1 with
      | none => intro _; simp [hself, h1]
      | some tgt =>
        cases h2 : scalarOneOrNone (s.follows.filter
            (fun f => f.follower_id == u.id && f.following_id == uid)) with
        | ok o2 =>
          cases o2 with
          | none => intro hcontra; simp [hself, h1, h2] at hcontra
          | some f0 => intro _; simp [hself, h1, h2]
        | err e2 => intro _; simp [hself, h1, h2]
        | dbError => intro _; simp [hself, h1, h2]
    | err e2 => intro _; simp [hself, h1]
    | dbError => intro _; simp [hself, h1]

theorem unfollow_user_atomic (uid : Nat) (u : UserRow) (s : Store) (e : ErrType) :
    (unfollow_user uid u s).1 = .err e → (unfollow_user uid u s).2 = s := by
  unfold unfollow_user
  cases h : scalarOneOrNone (s.follows.filter
      (fun f => f.follower_id == u.id && f.following_id == uid)) with
  | ok o =>
    cases o with
    | none => intro _; simp [h]
    | some f0 => intro hcontra; simp [h] at hcontra
  | err e2 => intro _; simp [h]
  | dbError => intro _; simp [h]

/-! Claim theorems. -/

/-- C1 (counterexample): the uniqueness of (user_id, tweet_id) on likes, the
uniqueness of (follower_id, following_id) on follows, and the no-self-follow
rule are not declared on the table schema of models.py: the likes and follows
tables carry no unique constraint over those column pairs and no check
constraint at all. -/
theorem uniqueness_not_declared_on_schema :
    ¬ (declaresUniqueOn likes_table ["user_id", "tweet_id"] = true ∧
       declaresUniqueOn follows_table ["follower_id", "following_id"] = true ∧
       declaresSomeCheck follows_table = true) := by
  decide

/-- C1 (amended): in every store reachable from a fresh store through the
handlers, no two Like rows that still reference a tweet share the same
(user_id, tweet_id) pair, no two Follow rows share the same
(follower_id, following_id) pair, and no Follow row is a self-follow; but
these invariants rest on application-level checks only — the table schema
declares no unique constraint over either column pair and no check
constraint. -/
theorem uniqueness_invariants_app_level_only :
    (∀ (s0 s : Store), InitStore s0 → Reachable s0 s → StoreInv s) ∧
    declaresUniqueOn likes_table ["user_id", "tweet_id"] = false ∧
    declaresUniqueOn follows_table ["follower_id", "following_id"] = false ∧
    declaresSomeCheck follows_table = false :=
  ⟨fun _ _ h0 h => storeInv_of_reachable h0 h, by decide, by decide, by decide⟩

/-- C1 witness: the invariant instantiated at the seeded startup store. -/
theorem uniqueness_invariants_app_level_only_witness : StoreInv emptyStore :=
  uniqueness_invariants_app_level_only.1 emptyStore emptyStore
    ⟨rfl, rfl, rfl, rfl, rfl⟩ Relation.ReflTransGen.refl

/-- C2 (divergence at the failing input): deleting one's own tweet succeeds,
removes the tweet row and the association rows, and a subsequent getFeed no
longer lists the tweet — but the Like row referencing the tweet is not
deleted: it survives with its tweet_id set to NULL, so an orphaned Like row
remains, contradicting the claim that every Like row referencing the tweet
is deleted. -/
theorem delete_tweet_leaves_orphan_like :
    delete_tweet 1 seedUser1 exDeleteStore = (.ok (), exDeleteStoreAfter) ∧
    get_tweets exDeleteStoreAfter = .ok [] ∧
    exDeleteStoreAfter.likes ≠ [] := by
  refine ⟨?_, ?_, ?_⟩ <;> decide

/-- C7 (divergence): every tweet persisted by create_tweet gets
`created_at = importTime`, the value `datetime.now()` had when models.py was
imported — the column default was evaluated once at class-definition time.
Two tweets created one after the other therefore carry the same created_at,
not the strictly increasing per-creation server-clock values the claim
states. -/
theorem created_at_fixed_at_import :
    ∀ (s : Store) (td1 td2 : String) (m1 m2 : List Nat) (u1 u2 : UserRow),
      ∃ t1 t2 : TweetRow,
        (create_tweet td1 m1 u1 s).2.tweets = s.tweets ++ [t1] ∧
        (create_tweet td2 m2 u2 (create_tweet td1 m1 u1 s).2).2.tweets
          = s.tweets ++ [t1] ++ [t2] ∧
        t1.created_at = s.importTime ∧ t2.created_at = s.importTime := by
  intro s td1 td2 m1 m2 u1 u2
  refine ⟨⟨s.nextTweetId, td1, u1.id, s.importTime⟩,
          ⟨s.nextTweetId + 1, td2, u2.id, s.importTime⟩, ?_, ?_, rfl, rfl⟩
  · unfold create_tweet
    by_cases h : m1.isEmpty <;> simp [h]
  · unfold create_tweet
    by_cases h1 : m1.isEmpty <;> by_cases h2 : m2.isEmpty <;>
      simp [h1, h2]

/-- C9: every mutating handler is atomic on error — whenever delete_tweet,
like_tweet, delete_like_tweet, follow_user or unfollow_user returns an
HTTPException error, the store after the call is exactly the store before
it. -/
theorem mutations_atomic_on_error :
    ∀ (s : Store) (tid uid : Nat) (u : UserRow) (e : ErrType),
      ((delete_tweet tid u s).1 = .err e → (delete_tweet tid u s).2 = s) ∧
      ((like_tweet tid u s).1 = .err e → (like_tweet tid u s).2 = s) ∧
      ((delete_like_tweet tid u s).1 = .err e →
        (delete_like_tweet tid u s).2 = s) ∧
      ((follow_user uid u s).1 = .err e → (follow_user uid u s).2 = s) ∧
      ((unfollow_user uid u s).1 = .err e → (unfollow_user uid u s).2 = s) :=
  fun s tid uid u e =>
    ⟨delete_tweet_atomic tid u s e, like_tweet_atomic tid u s e,
     delete_like_tweet_atomic tid u s e, follow_user_atomic uid u s e,
     unfollow_user_atomic uid u s e⟩

/-- C9 witness: concrete error calls on the startup store leave it
unchanged (NotFound deletes/likes/unlikes/unfollows and a self-follow). -/
theorem mutations_atomic_on_error_witness :
    (delete_tweet 1 seedUser1 emptyStore).2 = emptyStore ∧
    (like_tweet 1 seedUser1 emptyStore).2 = emptyStore ∧
    (delete_like_tweet 1 seedUser1 emptyStore).2 = emptyStore ∧
    (follow_user 1 seedUser1 emptyStore).2 = emptyStore ∧
    (unfollow_user 2 seedUser1 emptyStore).2 = emptyStore :=
  ⟨(mutations_atomic_on_error emptyStore 1 1 seedUser1 .NotFound).1 (by decide),
   (mutations_atomic_on_error emptyStore 1 1 seedUser1 .NotFound).2.1 (by decide),
   (mutations_atomic_on_error emptyStore 1 1 seedUser1 .NotFound).2.2.1
     (by decide),
   (mutations_atomic_on_error emptyStore 1 1 seedUser1 .InvalidAction).2.2.2.1
     (by decide),
   (mutations_atomic_on_error emptyStore 1 2 seedUser1 .NotFound).2.2.2.2
     (by decide)⟩

/-- C10: self-like is permitted — for any user U and any existing tweet T
authored by U that U has not yet liked, like_tweet succeeds and inserts the
Like row; the self-action guard of follow_user has no counterpart here. -/
theorem self_like_permitted :
    ∀ (s : Store) (U : UserRow) (T : TweetRow),
      (s.tweets.map (fun t => t.id)).Nodup →
      T ∈ s.tweets → T.user_id = U.id →
      (∀ l ∈ s.likes, ¬ (l.user_id = U.id ∧ l.tweet_id = some T.id)) →
      like_tweet T.id U s =
        (.ok (), { s with likes := s.likes ++ [⟨U.id, some T.id⟩] }) := by
  intro s U T hT hmem hauthor hnolike
  have hfilter : s.tweets.filter (fun t => t.id == T.id) = [T] :=
    filter_key_eq (fun t => t.id) hT hmem rfl
  have hlikes : s.likes.filter
      (fun l => l.user_id == U.id && l.tweet_id == some T.id) = [] := by
    apply List.filter_eq_nil_iff.mpr
    intro l hl
    have hn := hnolike l hl
    simp only [Bool.and_eq_true, beq_iff_eq]
    intro hcontra
    exact hn ⟨hcontra.1, hcontra.2⟩
  unfold like_tweet
  rw [hfilter, hlikes]
  rfl

/-- C10 witness: user 1 likes their own tweet in `selfTweetStore`. -/
theorem self_like_permitted_witness :
    like_tweet 1 seedUser1 selfTweetStore =
      (.ok (), { selfTweetStore with
                 likes := selfTweetStore.likes ++ [⟨1, some 1⟩] }) :=
  self_like_permitted selfTweetStore seedUser1 ⟨1, "mine", 1, 0⟩
    (by decide) (by decide) (by decide) (by decide)

/-- C4: follow_user fails InvalidAction on self-follow (for every user,
following themselves always fails InvalidAction, checked before anything
else), fails NotFound when the target user does not exist, fails Duplicate
when a Follow row for (actor, target) already exists, and otherwise appends
exactly one Follow row with follower_id = actor.id and
following_id = target. -/
theorem follow_user_contract :
    ∀ (s : Store) (actor : UserRow) (target : Nat),
      (s.users.map (fun u => u.id)).Nodup →
      (followPairs s).Nodup →
      (actor.id = target →
        follow_user target actor s = (.err .InvalidAction, s)) ∧
      (actor.id ≠ target → (∀ u ∈ s.users, u.id ≠ target) →
        follow_user target actor s = (.err .NotFound, s)) ∧
      (actor.id ≠ target → (∃ u ∈ s.users, u.id = target) →
        (∃ f ∈ s.follows, f.follower_id = actor.id ∧ f.following_id = target) →
        follow_user target actor s = (.err .Duplicate, s)) ∧
      (actor.id ≠ target → (∃ u ∈ s.users, u.id = target) →
        (¬ ∃ f ∈ s.follows, f.follower_id = actor.id ∧ f.following_id = target) →
        follow_user target actor s =
          (.ok (), { s with follows := s.follows ++ [⟨actor.id, target⟩] })) := by
  intro s actor target hU hP
  have hnd : (s.follows.filterMap
      (fun f => some (f.follower_id, f.following_id))).Nodup := by
    have heq : s.follows.filterMap
        (fun f => some (f.follower_id, f.following_id)) = followPairs s := by
      unfold followPairs
      exact congrFun (List.filterMap_eq_map
        (fun f : FollowRow => (f.follower_id, f.following_id))) s.follows
    rw [heq]
    exact hP
  refine ⟨?_, ?_, ?_, ?_⟩
  · intro h
    simp [follow_user, h]
  · intro hne habs
    have hbe : (actor.id == target) = false := by simp [hne]
    have hfil : s.users.filter (fun x => x.id == target) = [] := by
      apply List.filter_eq_nil_iff.mpr
      intro x hx
      simp only [beq_iff_eq]
      exact habs x hx
    simp [follow_user, hbe, hfil, scalarOneOrNone]
  · intro hne hex hdup
    obtain ⟨uT, huT, huTid⟩ := hex
    obtain ⟨f0, hf0, hf0a, hf0b⟩ := hdup
    have hbe : (actor.id == target) = false := by simp [hne]
    have hufil : s.users.filter (fun x => x.id == target) = [uT] :=
      filter_key_eq (fun x => x.id) hU huT huTid
    have hc : ∀ x : FollowRow,
        (x.follower_id == actor.id && x.following_id == target) = true →
        (fun f : FollowRow => some (f.follower_id, f.following_id)) x =
          some (actor.id, target) := by
      intro x hx
      simp only [Bool.and_eq_true, beq_iff_eq] at hx
      simp [hx.1, hx.2]
    have hlen := filter_length_le_one hnd hc
    have hmemf : f0 ∈ s.follows.filter
        (fun f => f.follower_id == actor.id && f.following_id == target) :=
      List.mem_filter.mpr ⟨hf0, by simp [hf0a, hf0b]⟩
    have hffil := eq_singleton_of_mem_of_length_le_one hmemf hlen
    simp [follow_user, hbe, hufil, hffil, scalarOneOrNone]
  · intro hne hex hnodup
    obtain ⟨uT, huT, huTid⟩ := hex
    have hbe : (actor.id == target) = false := by simp [hne]
    have hufil : s.users.filter (fun x => x.id == target) = [uT] :=
      filter_key_eq (fun x => x.id) hU huT huTid
    have hffil : s.follows.filter
        (fun f => f.follower_id == actor.id && f.following_id == target) = [] := by
      apply List.filter_eq_nil_iff.mpr
      intro f hf
      simp only [Bool.and_eq_true, beq_iff_eq]
      intro hcontra
      exact hnodup ⟨f, hf, hcontra.1, hcontra.2⟩
    simp [follow_user, hbe, hufil, hffil, scalarOneOrNone]

/-- C4 witness: on the startup store, user 1 follows user 2 and exactly one
Follow row is appended. -/
theorem follow_user_contract_witness :
    follow_user 2 seedUser1 emptyStore =
      (.ok (), { emptyStore with follows := emptyStore.follows ++ [⟨1, 2⟩] }) :=
  (follow_user_contract emptyStore seedUser1 2 (by decide) (by decide)).2.2.2
    (by decide) ⟨seedUser2, by decide, rfl⟩ (by decide)

/-- C5: like_tweet fails NotFound when the tweet is absent, Duplicate when
the actor already liked it, and otherwise appends exactly one Like row;
delete_like_tweet fails NotFound when no such Like exists and otherwise
removes exactly that Like row; and on the concrete scenario store, liking
twice makes the second call fail Duplicate while unlike-then-re-like
succeeds. -/
theorem like_unlike_contract :
    (∀ (s : Store) (actor : UserRow) (tid : Nat),
      (s.tweets.map (fun t => t.id)).Nodup →
      (likePairs s).Nodup →
      ((∀ t ∈ s.tweets, t.id ≠ tid) →
        like_tweet tid actor s = (.err .NotFound, s)) ∧
      ((∃ t ∈ s.tweets, t.id = tid) →
        (∃ l ∈ s.likes, l.user_id = actor.id ∧ l.tweet_id = some tid) →
        like_tweet tid actor s = (.err .Duplicate, s)) ∧
      ((∃ t ∈ s.tweets, t.id = tid) →
        (¬ ∃ l ∈ s.likes, l.user_id = actor.id ∧ l.tweet_id = some tid) →
        like_tweet tid actor s =
          (.ok (), { s with likes := s.likes ++ [⟨actor.id, some tid⟩] })) ∧
      ((¬ ∃ l ∈ s.likes, l.user_id = actor.id ∧ l.tweet_id = some tid) →
        delete_like_tweet tid actor s = (.err .NotFound, s)) ∧
      ((∃ l ∈ s.likes, l.user_id = actor.id ∧ l.tweet_id = some tid) →
        ∃ s' : Store, delete_like_tweet tid actor s = (.ok (), s') ∧
          s'.likes.length + 1 = s.likes.length ∧
          (∀ l : LikeRow, l ∈ s'.likes ↔
            (l ∈ s.likes ∧ ¬ (l.user_id = actor.id ∧ l.tweet_id = some tid))) ∧
          s'.users = s.users ∧ s'.tweets = s.tweets ∧ s'.follows = s.follows ∧
          s'.tweetMedia = s.tweetMedia)) ∧
    ((like_tweet 1 seedUser1 scenarioStore).1 = .ok () ∧
      (like_tweet 1 seedUser1 (like_tweet 1 seedUser1 scenarioStore).2).1 =
        .err .Duplicate ∧
      (delete_like_tweet 1 seedUser1 (like_tweet 1 seedUser1 scenarioStore).2).1 =
        .ok () ∧
      (like_tweet 1 seedUser1 (delete_like_tweet 1 seedUser1
        (like_tweet 1 seedUser1 scenarioStore).2).2).1 = .ok ()) := by
  constructor
  · intro s actor tid hT hL
    have hnd : (s.likes.filterMap
        (fun l => l.tweet_id.map (fun t => (l.user_id, t)))).Nodup := hL
    have hc : ∀ x : LikeRow,
        (x.user_id == actor.id && x.tweet_id == some tid) = true →
        (fun l : LikeRow => l.tweet_id.map (fun t => (l.user_id, t))) x =
          some (actor.id, tid) := by
      intro x hx
      simp only [Bool.and_eq_true, beq_iff_eq] at hx
      simp [hx.1, hx.2]
    have hlen := filter_length_le_one hnd hc
    refine ⟨?_, ?_, ?_, ?_, ?_⟩
    · intro habs
      have hfil : s.tweets.filter (fun t => t.id == tid) = [] := by
        apply List.filter_eq_nil_iff.mpr
        intro x hx
        simp only [beq_iff_eq]
        exact habs x hx
      simp [like_tweet, hfil, scalarOneOrNone]
    · intro hex hdup
      obtain ⟨tw, htw, htwid⟩ := hex
      obtain ⟨l0, hl0, hl0a, hl0b⟩ := hdup
      have htfil : s.tweets.filter (fun t => t.id == tid) = [tw] :=
        filter_key_eq (fun t => t.id) hT htw htwid
      have hmem : l0 ∈ s.likes.filter
          (fun l => l.user_id == actor.id && l.tweet_id == some tid) :=
        List.mem_filter.mpr ⟨hl0, by simp [hl0a, hl0b]⟩
      have hlfil := eq_singleton_of_mem_of_length_le_one hmem hlen
      simp [like_tweet, htfil, hlfil, scalarOneOrNone]
    · intro hex hnol
      obtain ⟨tw, htw, htwid⟩ := hex
      have htfil : s.tweets.filter (fun t => t.id == tid) = [tw] :=
        filter_key_eq (fun t => t.id) hT htw htwid
      have hlfil : s.likes.filter
          (fun l => l.user_id == actor.id && l.tweet_id == some tid) = [] := by
        apply List.filter_eq_nil_iff.mpr
        intro l hl
        simp only [Bool.and_eq_true, beq_iff_eq]
        intro hcontra
        exact hnol ⟨l, hl, hcontra.1, hcontra.2⟩
      simp [like_tweet, htfil, hlfil, scalarOneOrNone]
    · intro hnol
      have hlfil : s.likes.filter
          (fun l => l.user_id == actor.id && l.tweet_id == some tid) = [] := by
        apply List.filter_eq_nil_iff.mpr
        intro l hl
        simp only [Bool.and_eq_true, beq_iff_eq]
        intro hcontra
        exact hnol ⟨l, hl, hcontra.1, hcontra.2⟩
      simp [delete_like_tweet, hlfil, scalarOneOrNone]
    · intro hdup
      obtain ⟨l0, hl0, hl0a, hl0b⟩ := hdup
      have hmem : l0 ∈ s.likes.filter
          (fun l => l.user_id == actor.id && l.tweet_id == some tid) :=
        List.mem_filter.mpr ⟨hl0, by simp [hl0a, hl0b]⟩
      have hlfil := eq_singleton_of_mem_of_length_le_one hmem hlen
      refine ⟨{ s with likes := (s.likes.eraseP
          (fun l => l.user_id == actor.id && l.tweet_id == some tid)) },
        ?_, ?_, ?_, rfl, rfl, rfl, rfl⟩
      · simp [delete_like_tweet, hlfil, scalarOneOrNone]
      · have hlep : (s.likes.eraseP
            (fun l => l.user_id == actor.id && l.tweet_id == some tid)).length =
              s.likes.length - 1 :=
          List.length_eraseP_of_mem hl0 (by simp [hl0a, hl0b])
        have hpos : 0 < s.likes.length := List.length_pos_of_mem hl0
        simp only [hlep]
        omega
      · intro l
        have hiff := mem_eraseP_iff_of_unique hlen l
        constructor
        · intro hx
          obtain ⟨h1, h2⟩ := hiff.mp hx
          refine ⟨h1, ?_⟩
          intro hcontra
          rw [show (l.user_id == actor.id && l.tweet_id == some tid) =
            true from by simp [hcontra.1, hcontra.2]] at h2
          cases h2
        · rintro ⟨h1, h2⟩
          apply hiff.mpr
          refine ⟨h1, ?_⟩
          cases hp : (l.user_id == actor.id && l.tweet_id == some tid) with
          | false => rfl
          | true =>
            exfalso
            simp only [Bool.and_eq_true, beq_iff_eq] at hp
            exact h2 ⟨hp.1, hp.2⟩
  · refine ⟨?_, ?_, ?_, ?_⟩ <;> decide

/-- C5 witness: user 1 likes tweet 1 in the scenario store and exactly one
Like row is appended. -/
theorem like_unlike_contract_witness :
    like_tweet 1 seedUser1 scenarioStore =
      (.ok (), { scenarioStore with
                 likes := scenarioStore.likes ++ [⟨1, some 1⟩] }) :=
  (like_unlike_contract.1 scenarioStore seedUser1 1 (by decide)
      (by decide)).2.2.1 ⟨⟨1, "hello", 2, 0⟩, by decide, rfl⟩ (by decide)

/-- C6: create_tweet always succeeds, returns the new tweet id, appends one
Tweet row with author_id = actor.id, and attaches exactly the media rows
whose id is in mediaIds and which are owned by the actor — every
non-matching id is silently ignored; in particular, referencing a media row
owned by another user yields a tweet with zero attachments. -/
theorem create_tweet_contract :
    (∀ (s : Store) (actor : UserRow) (content : String) (mediaIds : List Nat),
      (∀ a ∈ s.tweetMedia, a.tweet_id ≠ s.nextTweetId) →
      ∃ s' : Store,
        create_tweet content mediaIds actor s = (.ok s.nextTweetId, s') ∧
        (∃ t : TweetRow, s'.tweets = s.tweets ++ [t] ∧ t.id = s.nextTweetId ∧
          t.user_id = actor.id ∧ t.content = content) ∧
        (∀ mid : Nat, (⟨s.nextTweetId, mid⟩ : AssocRow) ∈ s'.tweetMedia ↔
          (mid ∈ mediaIds ∧ ∃ m ∈ s.media, m.id = mid ∧ m.user = actor.id))) ∧
    (create_tweet "hi" [5] seedUser1 exMediaStore = (.ok 1, exMediaStoreAfter) ∧
      exMediaStoreAfter.tweetMedia = []) := by
  constructor
  · intro s actor content mediaIds hFresh
    cases hE : mediaIds.isEmpty with
    | true =>
      have hnil : mediaIds = [] := by simpa using hE
      refine ⟨{ s with
          tweets := s.tweets ++ [⟨s.nextTweetId, content, actor.id, s.importTime⟩],
          nextTweetId := s.nextTweetId + 1 }, ?_, ?_, ?_⟩
      · simp [create_tweet, hE]
      · exact ⟨⟨s.nextTweetId, content, actor.id, s.importTime⟩, rfl, rfl, rfl, rfl⟩
      · intro mid
        constructor
        · intro hm
          exact absurd rfl (hFresh _ hm)
        · rintro ⟨hmid, -⟩
          rw [hnil] at hmid
          cases hmid
    | false =>
      refine ⟨{ s with
          tweets := s.tweets ++ [⟨s.nextTweetId, content, actor.id, s.importTime⟩],
          nextTweetId := s.nextTweetId + 1,
          tweetMedia := s.tweetMedia ++
            (s.media.filter (fun m => mediaIds.contains m.id &&
              m.user == actor.id)).map (fun m => ⟨s.nextTweetId, m.id⟩) },
        ?_, ?_, ?_⟩
      · simp [create_tweet, hE]
      · exact ⟨⟨s.nextTweetId, content, actor.id, s.importTime⟩, rfl, rfl, rfl, rfl⟩
      · intro mid
        constructor
        · intro hm
          rcases List.mem_append.mp hm with hm | hm
          · exact absurd rfl (hFresh _ hm)
          · obtain ⟨m, hmf, hmeq⟩ := List.mem_map.mp hm
            obtain ⟨hmmem, hmpred⟩ := List.mem_filter.mp hmf
            simp only [Bool.and_eq_true, beq_iff_eq] at hmpred
            have hmid : m.id = mid := by
              have := congrArg AssocRow.media_id hmeq
              simpa using this
            refine ⟨?_, m, hmmem, hmid, hmpred.2⟩
            rw [← hmid]
            simpa using hmpred.1
        · rintro ⟨hmid, m, hmm, hmid2, huser⟩
          apply List.mem_append.mpr
          right
          apply List.mem_map.mpr
          refine ⟨m, List.mem_filter.mpr ⟨hmm, ?_⟩, ?_⟩
          · simp only [Bool.and_eq_true, beq_iff_eq]
            refine ⟨?_, huser⟩
            rw [hmid2]
            simpa using hmid
          · rw [hmid2]
  · exact ⟨by decide, by decide⟩

/-- C6 witness: the contract instantiated at the foreign-media store — the
tweet is created with id 1 and the attachment characterisation holds. -/
theorem create_tweet_contract_witness :
    ∃ s' : Store,
      create_tweet "hi" [5] seedUser1 exMediaStore =
        (.ok exMediaStore.nextTweetId, s') ∧
      (∃ t : TweetRow, s'.tweets = exMediaStore.tweets ++ [t] ∧
        t.id = exMediaStore.nextTweetId ∧ t.user_id = seedUser1.id ∧
        t.content = "hi") ∧
      (∀ mid : Nat,
        (⟨exMediaStore.nextTweetId, mid⟩ : AssocRow) ∈ s'.tweetMedia ↔
        (mid ∈ [5] ∧ ∃ m ∈ exMediaStore.media,
          m.id = mid ∧ m.user = seedUser1.id)) :=
  create_tweet_contract.1 exMediaStore seedUser1 "hi" [5] (by decide)

/-- C8: get_user_profile fails NotFound when no user has the requested id;
otherwise it returns the user's id and name together with the followers list
(exactly the users that follow userId through some Follow row) and the
following list (exactly the users that userId follows). -/
theorem get_user_profile_contract :
    ∀ (s : Store) (userId : Nat),
      (s.users.map (fun u => u.id)).Nodup →
      (∀ f ∈ s.follows,
        (∃ u ∈ s.users, u.id = f.follower_id) ∧
        (∃ u ∈ s.users, u.id = f.following_id)) →
      ((∀ u ∈ s.users, u.id ≠ userId) →
        get_user_profile userId s = .err .NotFound) ∧
      (∀ u ∈ s.users, u.id = userId →
        ∃ p : ProfileView, get_user_profile userId s = .ok p ∧
          p.id = u.id ∧ p.name = u.name ∧
          (∀ x : AuthorView, x ∈ p.followers ↔
            ∃ v ∈ s.users, (∃ f ∈ s.follows,
              f.follower_id = v.id ∧ f.following_id = userId) ∧
              x = ⟨v.id, v.name⟩) ∧
          (∀ x : AuthorView, x ∈ p.following ↔
            ∃ v ∈ s.users, (∃ f ∈ s.follows,
              f.follower_id = userId ∧ f.following_id = v.id) ∧
              x = ⟨v.id, v.name⟩)) := by
  intro s userId hU hFK
  constructor
  · intro habs
    have hfil : s.users.filter (fun x => x.id == userId) = [] := by
      apply List.filter_eq_nil_iff.mpr
      intro x hx
      simp only [beq_iff_eq]
      exact habs x hx
    simp [get_user_profile, hfil, scalarOneOrNone]
  · intro u hu huid
    have hfil : s.users.filter (fun x => x.id == userId) = [u] :=
      filter_key_eq (fun x => x.id) hU hu huid
    obtain ⟨fol, hfol⟩ : ∃ fol, profileFollowers s u.id = some fol := by
      unfold profileFollowers
      apply seqOption_isSome
      intro f hf
      obtain ⟨v, hv, hvid⟩ := (hFK f (List.mem_filter.mp hf).1).1
      have hfd : s.users.find? (fun x => x.id == f.follower_id) = some v :=
        find?_key_eq (fun x => x.id) hU hv hvid
      simp [hfd]
    obtain ⟨fong, hfong⟩ : ∃ fong, profileFollowing s u.id = some fong := by
      unfold profileFollowing
      apply seqOption_isSome
      intro f hf
      obtain ⟨v, hv, hvid⟩ := (hFK f (List.mem_filter.mp hf).1).2
      have hfd : s.users.find? (fun x => x.id == f.following_id) = some v :=
        find?_key_eq (fun x => x.id) hU hv hvid
      simp [hfd]
    refine ⟨⟨u.id, u.name, fol, fong⟩, ?_, rfl, rfl, ?_, ?_⟩
    · simp [get_user_profile, hfil, scalarOneOrNone, hfol, hfong]
    · intro x
      unfold profileFollowers at hfol
      have hmemiff := forall₂_mem_iff (seqOption_forall₂ hfol) x
      constructor
      · intro hx
        obtain ⟨f, hf, hfn⟩ := hmemiff.mp hx
        obtain ⟨hfmem, hfpred⟩ := List.mem_filter.mp hf
        simp only [beq_iff_eq] at hfpred
        cases hfd : s.users.find? (fun t => t.id == f.follower_id) with
        | none => rw [hfd] at hfn; cases hfn
        | some v =>
          rw [hfd] at hfn
          simp only [Option.map_some', Option.some.injEq] at hfn
          have hvmem := List.mem_of_find?_eq_some hfd
          have hvid : v.id = f.follower_id := by
            have := List.find?_some hfd
            simpa using this
          exact ⟨v, hvmem, ⟨f, hfmem, hvid.symm, by rw [hfpred, huid]⟩, hfn.symm⟩
      · rintro ⟨v, hv, ⟨f, hf, hfa, hfb⟩, hx⟩
        apply hmemiff.mpr
        refine ⟨f, List.mem_filter.mpr ⟨hf, by simp [hfb, huid]⟩, ?_⟩
        have hfd : s.users.find? (fun t => t.id == f.follower_id) = some v :=
          find?_key_eq (fun t => t.id) hU hv hfa.symm
        simp [hfd, hx]
    · intro x
      unfold profileFollowing at hfong
      have hmemiff := forall₂_mem_iff (seqOption_forall₂ hfong) x
      constructor
      · intro hx
        obtain ⟨f, hf, hfn⟩ := hmemiff.mp hx
        obtain ⟨hfmem, hfpred⟩ := List.mem_filter.mp hf
        simp only [beq_iff_eq] at hfpred
        cases hfd : s.users.find? (fun t => t.id == f.following_id) with
        | none => rw [hfd] at hfn; cases hfn
        | some v =>
          rw [hfd] at hfn
          simp only [Option.map_some', Option.some.injEq] at hfn
          have hvmem := List.mem_of_find?_eq_some hfd
          have hvid : v.id = f.following_id := by
            have := List.find?_some hfd
            simpa using this
          exact ⟨v, hvmem, ⟨f, hfmem, by rw [hfpred, huid], hvid.symm⟩, hfn.symm⟩
      · rintro ⟨v, hv, ⟨f, hf, hfa, hfb⟩, hx⟩
        apply hmemiff.mpr
        refine ⟨f, List.mem_filter.mpr ⟨hf, by simp [hfa, huid]⟩, ?_⟩
        have hfd : s.users.find? (fun t => t.id == f.following_id) = some v :=
          find?_key_eq (fun t => t.id) hU hv hfb.symm
        simp [hfd, hx]

/-- C8 witness: the profile of user 1 in `profileStore` is returned with
id 1. -/
theorem get_user_profile_contract_witness :
    ∃ p : ProfileView, get_user_profile 1 profileStore = .ok p ∧ p.id = 1 := by
  obtain ⟨p, h1, h2, -⟩ :=
    (get_user_profile_contract profileStore 1 (by decide) (by decide)).2
      seedUser1 (by decide) rfl
  exact ⟨p, h1, h2⟩

/-- C3: get_tweets returns all stored tweets, ordered by like count
descending with created_at descending as tie-break; each entry carries the
tweet's id, content, attached media paths, author id and name, and the
liker list with user_id and name; and on the concrete example store with
T1 (2 likes, created at 1), T2 (2 likes, created at 2), T3 (5 likes,
created at 0) the returned order is [T3, T2, T1]. -/
theorem get_tweets_feed_contract :
    (∀ s : Store,
      (s.users.map (fun u => u.id)).Nodup →
      (s.media.map (fun m => m.id)).Nodup →
      (∀ t ∈ s.tweets, ∃ u ∈ s.users, u.id = t.user_id) →
      (∀ l ∈ s.likes, ∃ u ∈ s.users, u.id = l.user_id) →
      (∀ a ∈ s.tweetMedia, ∃ m ∈ s.media, m.id = a.media_id) →
      ∃ (ts : List TweetRow) (out : List FormattedTweet),
        ts.Perm s.tweets ∧ List.Sorted (FeedBefore s) ts ∧
        get_tweets s = .ok out ∧
        List.Forall₂ (fun t e => formatTweet s t = some e) ts out ∧
        ∀ (t : TweetRow) (e : FormattedTweet), formatTweet s t = some e →
          e.id = t.id ∧ e.content = t.content ∧
          (∃ u ∈ s.users, u.id = t.user_id ∧ e.author = ⟨u.id, u.name⟩) ∧
          (∀ p : String, p ∈ e.attachments ↔ ∃ a ∈ s.tweetMedia,
            a.tweet_id = t.id ∧ ∃ m ∈ s.media, m.id = a.media_id ∧
              m.file_path = p) ∧
          (∀ v : LikerView, v ∈ e.likes ↔ ∃ l ∈ s.likes,
            l.tweet_id = some t.id ∧ ∃ u ∈ s.users, u.id = l.user_id ∧
              v = ⟨u.id, u.name⟩)) ∧
    (∃ out : List FormattedTweet, get_tweets feedStore = .ok out ∧
      out.map (fun e : FormattedTweet => e.id) = [3, 2, 1]) := by
  constructor
  · intro s hU hM hAuth hLikeU hAssocM
    have hfmt : ∀ t ∈ sortedTweets s, ((formatTweet s) t).isSome := by
      intro t ht
      have ht' : t ∈ s.tweets :=
        (List.perm_insertionSort (FeedBefore s) s.tweets).subset ht
      obtain ⟨u, hu, huid⟩ := hAuth t ht'
      have hA : s.users.find? (fun x => x.id == t.user_id) = some u :=
        find?_key_eq (fun x => x.id) hU hu huid
      obtain ⟨att, hAtt⟩ : ∃ att, tweetAttachments s t = some att := by
        unfold tweetAttachments
        apply seqOption_isSome
        intro a ha
        obtain ⟨m, hm, hmid⟩ := hAssocM a (List.mem_filter.mp ha).1
        have hfd : s.media.find? (fun x => x.id == a.media_id) = some m :=
          find?_key_eq (fun x => x.id) hM hm hmid
        simp [hfd]
      obtain ⟨lik, hLik⟩ : ∃ lik, tweetLikers s t = some lik := by
        unfold tweetLikers
        apply seqOption_isSome
        intro l hl
        obtain ⟨u2, hu2, hu2id⟩ := hLikeU l (List.mem_filter.mp hl).1
        have hfd : s.users.find? (fun x => x.id == l.user_id) = some u2 :=
          find?_key_eq (fun x => x.id) hU hu2 hu2id
        simp [hfd]
      simp [formatTweet, hA, hAtt, hLik]
    obtain ⟨out, hout⟩ := seqOption_isSome (formatTweet s) (sortedTweets s) hfmt
    refine ⟨sortedTweets s, out, List.perm_insertionSort _ _,
      List.sorted_insertionSort _ _, ?_, seqOption_forall₂ hout, ?_⟩
    · unfold get_tweets
      rw [hout]
    · intro t e hfe
      unfold formatTweet at hfe
      cases hA : s.users.find? (fun x => x.id == t.user_id) with
      | none => rw [hA] at hfe; cases hfe
      | some author =>
        rw [hA] at hfe
        cases hAtt : tweetAttachments s t with
        | none => rw [hAtt] at hfe; cases hfe
        | some att =>
          rw [hAtt] at hfe
          cases hLik : tweetLikers s t with
          | none => rw [hLik] at hfe; cases hfe
          | some likers =>
            rw [hLik] at hfe
            simp only [Option.some_bind, Option.map_some',
              Option.some.injEq] at hfe
            subst hfe
            refine ⟨rfl, rfl, ?_, ?_, ?_⟩
            · have hamem := List.mem_of_find?_eq_some hA
              have haid : author.id = t.user_id := by
                have := List.find?_some hA
                simpa using this
              exact ⟨author, hamem, haid, rfl⟩
            · intro p
              unfold tweetAttachments at hAtt
              have hmemiff := forall₂_mem_iff (seqOption_forall₂ hAtt) p
              constructor
              · intro hp
                obtain ⟨a, ha, hfn⟩ := hmemiff.mp hp
                obtain ⟨hamem, hapred⟩ := List.mem_filter.mp ha
                simp only [beq_iff_eq] at hapred
                cases hfd : s.media.find? (fun x => x.id == a.media_id) with
                | none => rw [hfd] at hfn; cases hfn
                | some m =>
                  rw [hfd] at hfn
                  simp only [Option.map_some', Option.some.injEq] at hfn
                  have hmmem := List.mem_of_find?_eq_some hfd
                  have hmid : m.id = a.media_id := by
                    have := List.find?_some hfd
                    simpa using this
                  exact ⟨a, hamem, hapred, m, hmmem, hmid, hfn⟩
              · rintro ⟨a, ha, haid, m, hm, hmid, hmp⟩
                apply hmemiff.mpr
                refine ⟨a, List.mem_filter.mpr ⟨ha, by simp [haid]⟩, ?_⟩
                have hfd : s.media.find? (fun x => x.id == a.media_id) = some m :=
                  find?_key_eq (fun x => x.id) hM hm hmid
                simp [hfd, hmp]
            · intro v
              unfold tweetLikers at hLik
              have hmemiff := forall₂_mem_iff (seqOption_forall₂ hLik) v
              constructor
              · intro hv
                obtain ⟨l, hl, hfn⟩ := hmemiff.mp hv
                obtain ⟨hlmem, hlpred⟩ := List.mem_filter.mp hl
                simp only [beq_iff_eq] at hlpred
                cases hfd : s.users.find? (fun x => x.id == l.user_id) with
                | none => rw [hfd] at hfn; cases hfn
                | some u2 =>
                  rw [hfd] at hfn
                  simp only [Option.map_some', Option.some.injEq] at hfn
                  have humem := List.mem_of_find?_eq_some hfd
                  have huid2 : u2.id = l.user_id := by
                    have := List.find?_some hfd
                    simpa using this
                  exact ⟨l, hlmem, hlpred, u2, humem, huid2, hfn.symm⟩
              · rintro ⟨l, hl, hlid, u2, hu2, hu2id, hv2⟩
                apply hmemiff.mpr
                refine ⟨l, List.mem_filter.mpr ⟨hl, by simp [hlid]⟩, ?_⟩
                have hfd : s.users.find? (fun x => x.id == l.user_id) = some u2 :=
                  find?_key_eq (fun x => x.id) hU hu2 hu2id
                simp [hfd, hv2]
  · exact ⟨_, rfl, rfl⟩

/-- C3 witness: the contract instantiated at the concrete feed store. -/
theorem get_tweets_feed_contract_witness :
    ∃ (ts : List TweetRow) (out : List FormattedTweet),
      ts.Perm feedStore.tweets ∧ List.Sorted (FeedBefore feedStore) ts ∧
      get_tweets feedStore = .ok out := by
  obtain ⟨ts, out, h1, h2, h3, -⟩ :=
    (get_tweets_feed_contract.1 feedStore (by decide) (by decide) (by decide)
      (by decide) (by decide))
  exact ⟨ts, out, h1, h2, h3⟩

end Microblog
